import Mathlib

/-
  Shallow embedding of the reference-locking stress routine
  `Java_nsk_share_gc_lock_jniref_JNIWeakGlobalRefLocker_criticalNative`
  (test/hotspot/jtreg/vmTestbase/nsk/share/gc/lock/jniref/JNIWeakGlobalRefLocker.cpp)
  and of `getTimeStamp`
  (src/jdk.accessibility/windows/native/common/AccessBridgeDebug.cpp).

  The C routine is modelled as a state transformer producing an event trace.
  JNI object references are modelled as `Option Obj` (NULL = none); the
  process-wide `static jfieldID objFieldId` cache and the holder's `obj`
  slot form the state.  `time(NULL)` is modelled by an environment function
  `clock : Nat → Int` giving the value returned by the k-th call of
  `time(NULL)` in this invocation (k = 0 is the `start_time` reading; the
  reading at the end of loop iteration i, 0-based, is `clock (i+1)`).
  The while loop is given an explicit fuel bound; `none` means the fuel
  was exhausted before the loop's elapsed-time condition let it exit.
  C's `jlong` division truncates toward zero, hence `Int.tdiv` below.
-/

namespace JNIWeakGlobalRefLocker

/-- Object identities: a `jobject` reference is `Option Obj`, `none` = NULL. -/
abbrev Obj := Nat

/-- Observable actions of the native routine, in program order. -/
inductive Event where
  | logError (msg : String)
  | readField (v : Option Obj)
  | writeField (v : Option Obj)
  | newWeakRef (o : Obj) (id : Nat)
  | deleteWeakRef (id : Nat)
  | sleepStep (ms : Int)
  | readTime (t : Int)
deriving DecidableEq, Repr

/-- Host environment of one call: results of the JNI introspection calls
(`GetObjectClass`, `GetFieldID`; `none` = the call returned NULL) and the
clock backing `time(NULL)`. -/
structure Env where
  getObjectClass : Option Nat
  getFieldID : Option Nat
  clock : Nat → Int

/-- Mutable state: the `static jfieldID objFieldId` cache and the holder
object's `obj` field. -/
structure State where
  objFieldId : Option Nat
  slot : Option Obj
deriving DecidableEq, Repr

/-- The while loop of `criticalNative`:
`while (current_time - start_time < enterTime) { gref = NewWeakGlobalRef(obj);
mssleep(sleepTime); DeleteWeakGlobalRef(gref); mssleep(sleepTime);
current_time = time(NULL); }`.
`fuel` bounds the number of iterations (`none` = exhausted), `current` is
the C variable `current_time`, `k` is the index of the next `time(NULL)`
reading; the weak handle created in the iteration that performs reading `k`
is given identity `k`. -/
def loop (clock : Nat → Int) (obj : Obj) (sleepTime enter start : Int) :
    Nat → Int → Nat → Option (List Event × Int)
  | 0, current, _ =>
    if current - start < enter then none else some ([], current)
  | fuel + 1, current, k =>
    if current - start < enter then
      (loop clock obj sleepTime enter start fuel (clock k) (k + 1)).map
        fun p =>
          (Event.newWeakRef obj k :: Event.sleepStep sleepTime ::
            Event.deleteWeakRef k :: Event.sleepStep sleepTime ::
            Event.readTime (clock k) :: p.1, p.2)
    else some ([], current)

/-- Canonical trace of `n` completed loop iterations whose first
`time(NULL)` reading has index `k`. -/
def loopTrace (obj : Obj) (sleepTime : Int) (clock : Nat → Int) :
    Nat → Nat → List Event
  | _, 0 => []
  | k, n + 1 =>
    Event.newWeakRef obj k :: Event.sleepStep sleepTime ::
      Event.deleteWeakRef k :: Event.sleepStep sleepTime ::
      Event.readTime (clock k) :: loopTrace obj sleepTime clock (k + 1) n

/-- The part of `criticalNative` from `obj = GetObjectField(...)` on, run in
a state whose `objFieldId` is already resolved: null-referent check, slot
clearing, `start_time = time(NULL)`, `enterTime /= 1000` (C `jlong`
division truncates toward zero), the loop from `current_time = 0`, and the
final restoring `SetObjectField`. -/
def armedPhase (env : Env) (s : State) (enterTime sleepTime : Int)
    (fuel : Nat) : Option (State × List Event) :=
  match s.slot with
  | none =>
    some (s, [Event.readField none,
              Event.logError "Error: GetObjectField returned NULL"])
  | some obj =>
    (loop env.clock obj sleepTime (Int.tdiv enterTime 1000) (env.clock 0)
        fuel 0 1).map
      fun p =>
        ({ s with slot := some obj },
         Event.readField (some obj) :: Event.writeField none ::
           Event.readTime (env.clock 0) ::
           (p.1 ++ [Event.writeField (some obj)]))

/-- The full native routine: lazy one-time resolution of `objFieldId`
(with the two NULL-check error returns), then the armed phase. -/
def criticalNative (env : Env) (s : State) (enterTime sleepTime : Int)
    (fuel : Nat) : Option (State × List Event) :=
  match s.objFieldId with
  | some _ => armedPhase env s enterTime sleepTime fuel
  | none =>
    match env.getObjectClass with
    | none => some (s, [Event.logError "Error: GetObjectClass returned NULL"])
    | some _ =>
      match env.getFieldID with
      | none => some (s, [Event.logError "Error: GetFieldID returned NULL"])
      | some fid =>
        armedPhase env { s with objFieldId := some fid } enterTime sleepTime
          fuel

/-- One call description, for reasoning about sequences of calls against
the process-wide `objFieldId` cache. -/
structure Call where
  env : Env
  enterTime : Int
  sleepTime : Int
  fuel : Nat

/-- Run a sequence of calls, threading the state (cache and slot). -/
def runCalls (s : State) : List Call → Option State
  | [] => some s
  | c :: cs =>
    match criticalNative c.env s c.enterTime c.sleepTime c.fuel with
    | none => none
    | some (s2, _) => runCalls s2 cs

/-- Field-resolution succeeds for this call: either the cache is already
populated, or both introspection calls return non-NULL. -/
def resolves (env : Env) (s : State) : Prop :=
  s.objFieldId.isSome ∨ (env.getObjectClass.isSome ∧ env.getFieldID.isSome)

instance (env : Env) (s : State) : Decidable (resolves env s) := by
  unfold resolves; infer_instance

/-- Number of weak-reference creations in a trace. -/
def countCreates (evs : List Event) : Nat :=
  evs.countP fun e => match e with
    | Event.newWeakRef _ _ => true
    | _ => false

/-- Number of weak-reference deletions in a trace. -/
def countDeletes (evs : List Event) : Nat :=
  evs.countP fun e => match e with
    | Event.deleteWeakRef _ => true
    | _ => false

/-- Number of writes to the holder's slot in a trace. -/
def countWrites (evs : List Event) : Nat :=
  evs.countP fun e => match e with
    | Event.writeField _ => true
    | _ => false

/-- Number of reads of the holder's slot in a trace. -/
def countReads (evs : List Event) : Nat :=
  evs.countP fun e => match e with
    | Event.readField _ => true
    | _ => false

/-- Checks that at every instant at most one weak reference is alive:
starting from alive handle `a`, every creation happens while none is
alive, every deletion deletes exactly the currently alive handle. -/
def atMostOneAlive : List Event → Option Nat → Bool
  | [], _ => true
  | Event.newWeakRef _ i :: rest, none => atMostOneAlive rest (some i)
  | Event.newWeakRef _ _ :: _, some _ => false
  | Event.deleteWeakRef i :: rest, some j =>
    i == j && atMostOneAlive rest none
  | Event.deleteWeakRef _ :: _, none => false
  | .logError _ :: rest, a => atMostOneAlive rest a
  | .readField _ :: rest, a => atMostOneAlive rest a
  | .writeField _ :: rest, a => atMostOneAlive rest a
  | .sleepStep _ :: rest, a => atMostOneAlive rest a
  | .readTime _ :: rest, a => atMostOneAlive rest a

end JNIWeakGlobalRefLocker

namespace AccessBridgeDebug

/-- `getTimeStamp`: `duration_cast<milliseconds>(steady_clock::now()
.time_since_epoch()).count()`.  The steady (monotonic) clock is modelled
as the nanosecond count `steadyNanos k` observed at the k-th call;
`duration_cast` to milliseconds truncates. -/
def getTimeStamp (steadyNanos : Nat → Nat) (call : Nat) : Nat :=
  steadyNanos call / 1000000

end AccessBridgeDebug

namespace JNIWeakGlobalRefLocker

/-- When the loop returns, the exit condition has failed: the last value of
`current_time` satisfies `enter ≤ current - start`, whatever the clock did. -/
theorem loop_final_ge (clock : Nat → Int) (obj : Obj) (st enter start : Int) :
    ∀ (fuel : Nat) (cur : Int) (k : Nat) (evs : List Event) (final : Int),
      loop clock obj st enter start fuel cur k = some (evs, final) →
      enter ≤ final - start := by
  intro fuel
  induction fuel with
  | zero =>
    intro cur k evs final h
    simp only [loop] at h
    split at h
    · exact absurd h (by simp)
    · rename_i hc
      simp only [Option.some.injEq, Prod.mk.injEq] at h
      omega
  | succ n ih =>
    intro cur k evs final h
    simp only [loop] at h
    split at h
    · rw [Option.map_eq_some'] at h
      obtain ⟨⟨evs0, final0⟩, hrec, heq⟩ := h
      simp only [Prod.mk.injEq] at heq
      obtain ⟨h1, h2⟩ := heq
      subst h2
      exact ih _ _ _ _ hrec
    · rename_i hc
      simp only [Option.some.injEq, Prod.mk.injEq] at h
      omega

/-- If the loop condition is already false, the loop exits at once with an
empty trace, for any fuel. -/
theorem loop_exit_now (clock : Nat → Int) (obj : Obj) (st enter start : Int)
    (fuel : Nat) (cur : Int) (k : Nat) (hc : ¬cur - start < enter) :
    loop clock obj st enter start fuel cur k = some ([], cur) := by
  cases fuel <;> simp [loop, hc]

/-- Every completed loop run produces exactly the canonical trace of some
number `n` of iterations: create, sleep, destroy, sleep, read time. -/
theorem loop_canonical (clock : Nat → Int) (obj : Obj) (st enter start : Int) :
    ∀ (fuel : Nat) (cur : Int) (k : Nat) (evs : List Event) (final : Int),
      loop clock obj st enter start fuel cur k = some (evs, final) →
      ∃ n, evs = loopTrace obj st clock k n := by
  intro fuel
  induction fuel with
  | zero =>
    intro cur k evs final h
    simp only [loop] at h
    split at h
    · exact absurd h (by simp)
    · simp only [Option.some.injEq, Prod.mk.injEq] at h
      exact ⟨0, h.1.symm⟩
  | succ n ih =>
    intro cur k evs final h
    simp only [loop] at h
    split at h
    · rw [Option.map_eq_some'] at h
      obtain ⟨⟨evs0, final0⟩, hrec, heq⟩ := h
      simp only [Prod.mk.injEq] at heq
      obtain ⟨m, hm⟩ := ih _ _ _ _ hrec
      refine ⟨m + 1, ?_⟩
      rw [← heq.1, hm]
      rfl
    · simp only [Option.some.injEq, Prod.mk.injEq] at h
      exact ⟨0, h.1.symm⟩

/-- Auxiliary termination argument: if readings of the clock grow by at
least one per iteration and the current reading is within `f` of the
threshold, fuel `f` completes the loop. -/
theorem loop_isSome_aux (clock : Nat → Int) (obj : Obj) (st enter start : Int)
    (hgrow : ∀ k, clock k + 1 ≤ clock (k + 1)) :
    ∀ (f m : Nat) (cur : Int), cur = clock m → start + enter ≤ cur + f →
      (loop clock obj st enter start f cur (m + 1)).isSome := by
  intro f
  induction f with
  | zero =>
    intro m cur hcur hb
    rw [loop_exit_now clock obj st enter start 0 cur (m + 1) (by omega)]
    rfl
  | succ n ih =>
    intro m cur hcur hb
    simp only [loop]
    split
    · rename_i hc
      have h1 := hgrow m
      have h2 := ih (m + 1) (clock (m + 1)) rfl (by push_cast at hb ⊢; omega)
      rw [Option.isSome_map']
      exact h2
    · rfl

/-- If every clock reading exceeds the previous one (each pair of sleeps
advances the second-granularity clock), some fuel completes the loop. -/
theorem loop_terminates (clock : Nat → Int) (obj : Obj) (st enter start : Int)
    (hgrow : ∀ k, clock k + 1 ≤ clock (k + 1)) :
    ∃ fuel, (loop clock obj st enter start fuel 0 1).isSome := by
  refine ⟨(start + enter - clock 1).toNat + 1, ?_⟩
  simp only [loop]
  split
  · rename_i hc
    have h1 := Int.self_le_toNat (start + enter - clock 1)
    have h2 := loop_isSome_aux clock obj st enter start hgrow
      ((start + enter - clock 1).toNat) 1 (clock 1) rfl (by omega)
    rw [Option.isSome_map']
    exact h2
  · rfl

/-- A completed loop whose condition held at entry performed at least one
iteration, hence created at least one weak reference. -/
theorem loop_creates_of_entered (clock : Nat → Int) (obj : Obj)
    (st enter start : Int) (fuel : Nat) (cur : Int) (k : Nat)
    (evs : List Event) (final : Int)
    (h : loop clock obj st enter start fuel cur k = some (evs, final))
    (hc : cur - start < enter) : 1 ≤ countCreates evs := by
  cases fuel with
  | zero => simp [loop, hc] at h
  | succ n =>
    simp only [loop, if_pos hc] at h
    rw [Option.map_eq_some'] at h
    obtain ⟨⟨evs0, final0⟩, hrec, heq⟩ := h
    simp only [Prod.mk.injEq] at heq
    rw [← heq.1]
    simp [countCreates, List.countP_cons]

end JNIWeakGlobalRefLocker


namespace JNIWeakGlobalRefLocker

/-- The canonical trace of `n` iterations contains `n` weak-reference
creations. -/
theorem countCreates_loopTrace (obj : Obj) (st : Int) (clock : Nat → Int) :
    ∀ (n k : Nat), countCreates (loopTrace obj st clock k n) = n := by
  intro n
  induction n with
  | zero => intro k; rfl
  | succ m ih =>
    intro k
    simp only [loopTrace, countCreates, List.countP_cons] at *
    simp [ih k.succ]

/-- The canonical trace of `n` iterations contains `n` weak-reference
deletions. -/
theorem countDeletes_loopTrace (obj : Obj) (st : Int) (clock : Nat → Int) :
    ∀ (n k : Nat), countDeletes (loopTrace obj st clock k n) = n := by
  intro n
  induction n with
  | zero => intro k; rfl
  | succ m ih =>
    intro k
    simp only [loopTrace, countDeletes, List.countP_cons] at *
    simp [ih k.succ]

/-- In the canonical loop trace (followed by the restoring field write) at
most one weak reference is alive at any instant, and each deletion deletes
the handle created in the same iteration. -/
theorem atMostOneAlive_loopTrace_concat (obj : Obj) (st : Int)
    (clock : Nat → Int) (v : Option Obj) :
    ∀ (n k : Nat),
      atMostOneAlive (loopTrace obj st clock k n ++ [Event.writeField v])
        none = true := by
  intro n
  induction n with
  | zero => intro k; rfl
  | succ m ih =>
    intro k
    simp only [loopTrace, List.cons_append, atMostOneAlive]
    simp [ih k.succ]

/-- The armed phase never touches the `objFieldId` cache. -/
theorem armedPhase_cache (env : Env) (s : State) (e t : Int) (fuel : Nat)
    (s2 : State) (evs : List Event)
    (hrun : armedPhase env s e t fuel = some (s2, evs)) :
    s2.objFieldId = s.objFieldId := by
  unfold armedPhase at hrun
  split at hrun
  · simp only [Option.some.injEq, Prod.mk.injEq] at hrun
    rw [← hrun.1]
  · rw [Option.map_eq_some'] at hrun
    obtain ⟨p, hp, heq⟩ := hrun
    simp only [Prod.mk.injEq] at heq
    rw [← heq.1]

/-- Shape of the armed phase when the slot is non-null: read, clear,
record start time, loop, restore. -/
theorem armedPhase_slot_some (env : Env) (s : State) (e t : Int) (fuel : Nat)
    (obj : Obj) (hs : s.slot = some obj) :
    armedPhase env s e t fuel =
      (loop env.clock obj t (Int.tdiv e 1000) (env.clock 0) fuel 0 1).map
        (fun p =>
          ({ s with slot := some obj },
           Event.readField (some obj) :: Event.writeField none ::
             Event.readTime (env.clock 0) ::
             (p.1 ++ [Event.writeField (some obj)]))) := by
  unfold armedPhase
  rw [hs]

/-- When field resolution succeeds, `criticalNative` is the armed phase run
in a state with the same slot and a populated cache. -/
theorem criticalNative_resolves_eq (env : Env) (s : State) (e t : Int)
    (fuel : Nat) (hres : resolves env s) :
    ∃ s1 : State, s1.slot = s.slot ∧ s1.objFieldId.isSome ∧
      criticalNative env s e t fuel = armedPhase env s1 e t fuel := by
  unfold criticalNative
  cases hc : s.objFieldId with
  | some fid => exact ⟨s, rfl, by simp [hc], rfl⟩
  | none =>
    rcases hres with h | ⟨h1, h2⟩
    · rw [hc] at h; exact absurd h (by simp)
    · obtain ⟨kl, hk⟩ := Option.isSome_iff_exists.mp h1
      obtain ⟨fid, hf⟩ := Option.isSome_iff_exists.mp h2
      rw [hk, hf]
      exact ⟨{ s with objFieldId := some fid }, rfl, rfl, rfl⟩

end JNIWeakGlobalRefLocker

namespace JNIWeakGlobalRefLocker

/-- Concrete host: introspection succeeds, `time(NULL)` always returns 1. -/
def envA : Env := ⟨some 0, some 0, fun _ => 1⟩
/-- Concrete host: introspection succeeds, the k-th `time(NULL)` reading is
`k` (a clock advancing one second per reading). -/
def envT : Env := ⟨some 0, some 0, fun k => (k : Int)⟩
/-- Concrete host: introspection succeeds, `time(NULL)` always returns 100. -/
def env9 : Env := ⟨some 0, some 0, fun _ => 100⟩
/-- Concrete host for the 2000 ms / 500 ms scenario: each loop iteration
performs two 500 ms sleeps, so the seconds clock has advanced by one at
each successive reading: reading k is `1000 + k`. -/
def envC7 : Env := ⟨some 0, some 0, fun k => 1000 + (k : Int)⟩
/-- Concrete host whose `GetFieldID` would answer 5, to show a populated
cache is never re-resolved. -/
def envB : Env := ⟨some 0, some 5, fun _ => 1⟩
/-- Concrete host whose `GetObjectClass` returns NULL. -/
def envFail : Env := ⟨none, none, fun _ => 1⟩
/-- Concrete state: cache resolved to 0, slot holds object 7. -/
def sA : State := ⟨some 0, some 7⟩
/-- Concrete state: cache resolved, slot is null. -/
def sNull : State := ⟨some 0, none⟩
/-- Concrete state: cache unresolved, slot holds object 7. -/
def sFresh : State := ⟨none, some 7⟩

/-- C1: for every call in which field resolution succeeds and the holder's
slot is non-null at entry, if the call returns normally the slot again
holds the identical reference it held before the call, and the restoring
write is the last step of the trace, after the loop exits. -/
theorem criticalNative_restores_slot (env : Env) (s : State)
    (enterTime sleepTime : Int) (fuel : Nat) (s2 : State) (evs : List Event)
    (hres : resolves env s) (hslot : s.slot.isSome)
    (hrun : criticalNative env s enterTime sleepTime fuel = some (s2, evs)) :
    s2.slot = s.slot ∧ evs.getLast? = some (Event.writeField s.slot) := by
  obtain ⟨obj, hobj⟩ := Option.isSome_iff_exists.mp hslot
  obtain ⟨s1, h1, h2, h3⟩ :=
    criticalNative_resolves_eq env s enterTime sleepTime fuel hres
  rw [h3, armedPhase_slot_some env s1 enterTime sleepTime fuel obj
    (h1.trans hobj)] at hrun
  rw [Option.map_eq_some'] at hrun
  obtain ⟨p, hp, heq⟩ := hrun
  simp only [Prod.mk.injEq] at heq
  obtain ⟨hs2, hevs⟩ := heq
  constructor
  · rw [← hs2]
    exact hobj.symm
  · rw [← hevs, hobj]
    rw [← List.cons_append, ← List.cons_append, ← List.cons_append,
      List.getLast?_concat]

/-- C1 witness: a concrete completed run restoring slot value 7. -/
theorem criticalNative_restores_slot_witness :
    (⟨some 0, some 7⟩ : State).slot = sA.slot ∧
      ([Event.readField (some 7), Event.writeField none, Event.readTime 1,
        Event.newWeakRef 7 1, Event.sleepStep 0, Event.deleteWeakRef 1,
        Event.sleepStep 0, Event.readTime 1,
        Event.writeField (some 7)] : List Event).getLast? =
        some (Event.writeField sA.slot) :=
  criticalNative_restores_slot envA sA 0 0 1 ⟨some 0, some 7⟩
    [Event.readField (some 7), Event.writeField none, Event.readTime 1,
     Event.newWeakRef 7 1, Event.sleepStep 0, Event.deleteWeakRef 1,
     Event.sleepStep 0, Event.readTime 1, Event.writeField (some 7)]
    (by decide) (by decide) (by decide)

end JNIWeakGlobalRefLocker

namespace JNIWeakGlobalRefLocker

/-- C3: if field resolution succeeds but the slot is null at call time, the
routine logs the missing-referent diagnostic and returns with a null slot,
performing no write to the slot and creating no weak reference: the
null check precedes the slot-clearing write. -/
theorem missing_referent_aborts (env : Env) (s : State)
    (enterTime sleepTime : Int) (fuel : Nat)
    (hres : resolves env s) (hslot : s.slot = none) :
    ∃ s2 evs, criticalNative env s enterTime sleepTime fuel = some (s2, evs) ∧
      s2.slot = none ∧ countWrites evs = 0 ∧ countCreates evs = 0 ∧
      Event.logError "Error: GetObjectField returned NULL" ∈ evs := by
  obtain ⟨s1, h1, h2, h3⟩ :=
    criticalNative_resolves_eq env s enterTime sleepTime fuel hres
  rw [h3]
  unfold armedPhase
  rw [h1.trans hslot]
  exact ⟨s1, _, rfl, h1.trans hslot, by decide, by decide, by simp⟩

/-- C3 witness: concrete null-slot call. -/
theorem missing_referent_aborts_witness :
    ∃ s2 evs, criticalNative envA sNull 5 5 0 = some (s2, evs) ∧
      s2.slot = none ∧ countWrites evs = 0 ∧ countCreates evs = 0 ∧
      Event.logError "Error: GetObjectField returned NULL" ∈ evs :=
  missing_referent_aborts envA sNull 5 5 0 (by decide) rfl

/-- C4: if the cache is empty and introspection fails (class or field
lookup returns NULL), the routine logs a resolution diagnostic and returns
with the state unchanged, before any read or write of the slot and without
creating a weak reference. -/
theorem resolution_failure_aborts (env : Env) (s : State)
    (enterTime sleepTime : Int) (fuel : Nat)
    (hcache : s.objFieldId = none)
    (hfail : env.getObjectClass = none ∨ env.getFieldID = none) :
    ∃ msg evs, criticalNative env s enterTime sleepTime fuel = some (s, evs) ∧
      evs = [Event.logError msg] ∧ countCreates evs = 0 ∧
      countReads evs = 0 ∧ countWrites evs = 0 := by
  unfold criticalNative
  rw [hcache]
  cases hco : env.getObjectClass with
  | none =>
    exact ⟨"Error: GetObjectClass returned NULL", _, rfl, rfl, by decide,
      by decide, by decide⟩
  | some kl =>
    cases hfi : env.getFieldID with
    | none =>
      exact ⟨"Error: GetFieldID returned NULL", _, rfl, rfl, by decide,
        by decide, by decide⟩
    | some fid =>
      rcases hfail with h | h
      · rw [hco] at h; exact absurd h (by simp)
      · rw [hfi] at h; exact absurd h (by simp)

/-- C4 witness: concrete failing-introspection call. -/
theorem resolution_failure_aborts_witness :
    ∃ msg evs, criticalNative envFail sFresh 5 5 0 = some (sFresh, evs) ∧
      evs = [Event.logError msg] ∧ countCreates evs = 0 ∧
      countReads evs = 0 ∧ countWrites evs = 0 :=
  resolution_failure_aborts envFail sFresh 5 5 0 rfl (Or.inl rfl)

/-- In any completed armed phase at most one weak reference is alive at a
time and creations and deletions are equinumerous. -/
theorem armedPhase_weak_props (env : Env) (s : State) (e t : Int) (fuel : Nat)
    (s2 : State) (evs : List Event)
    (hrun : armedPhase env s e t fuel = some (s2, evs)) :
    atMostOneAlive evs none = true ∧ countCreates evs = countDeletes evs := by
  unfold armedPhase at hrun
  split at hrun
  · simp only [Option.some.injEq, Prod.mk.injEq] at hrun
    rw [← hrun.2]
    decide
  · rename_i obj hobj
    rw [Option.map_eq_some'] at hrun
    obtain ⟨⟨evs0, final0⟩, hloop, heq⟩ := hrun
    simp only [Prod.mk.injEq] at heq
    obtain ⟨n, hn⟩ := loop_canonical _ _ _ _ _ _ _ _ _ _ hloop
    rw [← heq.2, hn]
    constructor
    · simp only [atMostOneAlive]
      exact atMostOneAlive_loopTrace_concat _ _ _ _ n 1
    · have h1 := countCreates_loopTrace obj t env.clock n 1
      have h2 := countDeletes_loopTrace obj t env.clock n 1
      simp only [countCreates, countDeletes, List.countP_cons,
        List.countP_append] at h1 h2 ⊢
      simp at h1 h2 ⊢
      omega

/-- C5: in every trace of a normally returning call, at most one weak
back-reference is alive at any instant — each deletion deletes exactly the
handle created in the same iteration, so lifetimes never overlap — and
every created back-reference is destroyed. -/
theorem weak_refs_never_overlap (env : Env) (s : State)
    (enterTime sleepTime : Int) (fuel : Nat) (s2 : State) (evs : List Event)
    (hrun : criticalNative env s enterTime sleepTime fuel = some (s2, evs)) :
    atMostOneAlive evs none = true ∧ countCreates evs = countDeletes evs := by
  unfold criticalNative at hrun
  split at hrun
  · exact armedPhase_weak_props _ _ _ _ _ _ _ hrun
  · split at hrun
    · simp only [Option.some.injEq, Prod.mk.injEq] at hrun
      rw [← hrun.2]
      decide
    · split at hrun
      · simp only [Option.some.injEq, Prod.mk.injEq] at hrun
        rw [← hrun.2]
        decide
      · exact armedPhase_weak_props _ _ _ _ _ _ _ hrun

/-- C5 witness: the trace of a concrete completed run. -/
theorem weak_refs_never_overlap_witness :
    atMostOneAlive
        [Event.readField (some 7), Event.writeField none, Event.readTime 1,
         Event.newWeakRef 7 1, Event.sleepStep 0, Event.deleteWeakRef 1,
         Event.sleepStep 0, Event.readTime 1, Event.writeField (some 7)]
        none = true ∧
      countCreates
          [Event.readField (some 7), Event.writeField none, Event.readTime 1,
           Event.newWeakRef 7 1, Event.sleepStep 0, Event.deleteWeakRef 1,
           Event.sleepStep 0, Event.readTime 1, Event.writeField (some 7)] =
        countDeletes
          [Event.readField (some 7), Event.writeField none, Event.readTime 1,
           Event.newWeakRef 7 1, Event.sleepStep 0, Event.deleteWeakRef 1,
           Event.sleepStep 0, Event.readTime 1, Event.writeField (some 7)] :=
  weak_refs_never_overlap envA sA 0 0 1 ⟨some 0, some 7⟩ _ (by decide)

end JNIWeakGlobalRefLocker

namespace JNIWeakGlobalRefLocker

/-- C2 counterexample: with `enterTime = 0` and a positive start timestamp
(`time(NULL)` = 1), a resolved call with a non-null slot still creates one
weak back-reference: the loop body runs once, because the first loop test
compares `current_time = 0`, not a fresh reading, with the start time. -/
theorem zero_duration_cex :
    (criticalNative envA sA 0 0 1).map (fun r => countCreates r.2) = some 1 ∧
      resolves envA sA ∧ sA.slot.isSome := by
  refine ⟨by decide, by decide, by decide⟩

/-- C2 amended: the budget is `enterTime` divided by 1000 truncated toward
zero and the loop runs while `current - start < enter` with `current`
refreshed at the end of each iteration, but `current` starts at 0, not at
a fresh clock reading; hence with `enterTime = 0`, a positive start
timestamp and a monotone clock an armed call performs exactly one
iteration: one weak back-reference created, one destroyed. -/
theorem zero_duration_runs_once (env : Env) (s : State)
    (sleepTime : Int) (fuel : Nat) (s2 : State) (evs : List Event)
    (hres : resolves env s) (hslot : s.slot.isSome)
    (hstart : 0 < env.clock 0) (hmono : env.clock 0 ≤ env.clock 1)
    (hrun : criticalNative env s 0 sleepTime fuel = some (s2, evs)) :
    countCreates evs = 1 ∧ countDeletes evs = 1 := by
  obtain ⟨obj, hobj⟩ := Option.isSome_iff_exists.mp hslot
  obtain ⟨s1, h1, h2, h3⟩ :=
    criticalNative_resolves_eq env s 0 sleepTime fuel hres
  rw [h3, armedPhase_slot_some env s1 0 sleepTime fuel obj
    (h1.trans hobj)] at hrun
  rw [Option.map_eq_some'] at hrun
  obtain ⟨⟨evs0, final0⟩, hloop, heq⟩ := hrun
  simp only [Prod.mk.injEq] at heq
  have htd : Int.tdiv 0 1000 = 0 := rfl
  rw [htd] at hloop
  cases fuel with
  | zero =>
    simp only [loop] at hloop
    rw [if_pos (by omega)] at hloop
    exact absurd hloop (by simp)
  | succ n =>
    simp only [loop] at hloop
    rw [if_pos (by omega)] at hloop
    rw [loop_exit_now env.clock obj sleepTime 0 (env.clock 0) n (env.clock 1)
      2 (by omega)] at hloop
    simp only [Option.map_some', Option.some.injEq, Prod.mk.injEq] at hloop
    rw [← heq.2, ← hloop.1]
    simp [countCreates, countDeletes, List.countP_cons, List.countP_append]

/-- C2 amended witness: the single-iteration trace of a concrete call. -/
theorem zero_duration_runs_once_witness :
    countCreates
        [Event.readField (some 7), Event.writeField none, Event.readTime 1,
         Event.newWeakRef 7 1, Event.sleepStep 0, Event.deleteWeakRef 1,
         Event.sleepStep 0, Event.readTime 1, Event.writeField (some 7)] = 1 ∧
      countDeletes
        [Event.readField (some 7), Event.writeField none, Event.readTime 1,
         Event.newWeakRef 7 1, Event.sleepStep 0, Event.deleteWeakRef 1,
         Event.sleepStep 0, Event.readTime 1, Event.writeField (some 7)] = 1 :=
  zero_duration_runs_once envA sA 0 1 ⟨some 0, some 7⟩ _ (by decide) (by decide)
    (by decide) (by decide) (by decide)

/-- C9 counterexample: an armed call (resolution succeeded, slot non-null)
with start timestamp 100 and `enterTime = -200000` performs zero loop
iterations: `0 - 100 < -200` is false, so the stale initial
`current_time = 0` does not make the body run for every negative input. -/
theorem negative_duration_cex :
    (criticalNative env9 sA (-200000) 0 0).map (fun r => countCreates r.2) =
        some 0 ∧
      resolves env9 sA ∧ sA.slot.isSome := by
  refine ⟨by decide, by decide, by decide⟩

/-- C9 amended: an armed call performs at least one loop iteration exactly
when the first test passes, that is whenever `0 - startTime` is below the
truncated threshold `enterTime` divided by 1000 — in particular for zero
and all nonnegative durations whenever the start timestamp is positive —
because the first loop test uses the initial `current_time = 0` rather
than a fresh clock reading. -/
theorem armed_loop_runs_at_least_once (env : Env) (s : State)
    (enterTime sleepTime : Int) (fuel : Nat) (s2 : State) (evs : List Event)
    (hres : resolves env s) (hslot : s.slot.isSome)
    (hcond : 0 - env.clock 0 < Int.tdiv enterTime 1000)
    (hrun : criticalNative env s enterTime sleepTime fuel = some (s2, evs)) :
    1 ≤ countCreates evs := by
  obtain ⟨obj, hobj⟩ := Option.isSome_iff_exists.mp hslot
  obtain ⟨s1, h1, h2, h3⟩ :=
    criticalNative_resolves_eq env s enterTime sleepTime fuel hres
  rw [h3, armedPhase_slot_some env s1 enterTime sleepTime fuel obj
    (h1.trans hobj)] at hrun
  rw [Option.map_eq_some'] at hrun
  obtain ⟨⟨evs0, final0⟩, hloop, heq⟩ := hrun
  simp only [Prod.mk.injEq] at heq
  have hc1 := loop_creates_of_entered _ _ _ _ _ _ _ _ _ _ hloop (by omega)
  rw [← heq.2]
  simp only [countCreates, List.countP_cons, List.countP_append] at hc1 ⊢
  simp at hc1 ⊢
  exact hc1

/-- C9 amended witness: a concrete armed run with one creation. -/
theorem armed_loop_runs_at_least_once_witness :
    1 ≤ countCreates
        [Event.readField (some 7), Event.writeField none, Event.readTime 0,
         Event.newWeakRef 7 1, Event.sleepStep 0, Event.deleteWeakRef 1,
         Event.sleepStep 0, Event.readTime 1, Event.writeField (some 7)] :=
  armed_loop_runs_at_least_once envT sA 1000 0 1 ⟨some 0, some 7⟩ _
    (by decide) (by decide) (by decide) (by decide)

end JNIWeakGlobalRefLocker

namespace JNIWeakGlobalRefLocker

/-- C6: under a clock model where every reading strictly exceeds the
previous one (the two sleeps of each iteration advance the seconds clock)
and the clock never decreases, the armed call terminates for every input
(some fuel completes it); at loop exit the elapsed `current - start` is at
least `enterTime` divided by 1000 truncated; and no upper bound on the
elapsed time is enforced: for every bound there is an admissible clock
under which the loop exits with larger elapsed time. -/
theorem loop_exits_by_elapsed_time (env : Env) (s : State)
    (enterTime sleepTime : Int) (obj : Obj)
    (hres : resolves env s) (hslot : s.slot = some obj)
    (hgrow : ∀ k, env.clock k + 1 ≤ env.clock (k + 1)) :
    (∃ fuel, (criticalNative env s enterTime sleepTime fuel).isSome) ∧
    (∀ (fuel : Nat) (evs : List Event) (final : Int),
        loop env.clock obj sleepTime (Int.tdiv enterTime 1000) (env.clock 0)
            fuel 0 1 = some (evs, final) →
        Int.tdiv enterTime 1000 ≤ final - env.clock 0) ∧
    (∀ B : Int, ∃ clock2 : Nat → Int,
        (∀ k, clock2 k + 1 ≤ clock2 (k + 1)) ∧
        ∃ evs final,
          loop clock2 obj sleepTime (Int.tdiv enterTime 1000) (clock2 0)
              0 0 1 = some (evs, final) ∧ B < final - clock2 0) := by
  refine ⟨?_, ?_, ?_⟩
  · obtain ⟨fuel, hf⟩ := loop_terminates env.clock obj sleepTime
      (Int.tdiv enterTime 1000) (env.clock 0) hgrow
    obtain ⟨s1, h1, h2, h3⟩ :=
      criticalNative_resolves_eq env s enterTime sleepTime fuel hres
    refine ⟨fuel, ?_⟩
    rw [h3, armedPhase_slot_some env s1 enterTime sleepTime fuel obj
      (h1.trans hslot), Option.isSome_map']
    exact hf
  · intro fuel evs final h
    exact loop_final_ge _ _ _ _ _ _ _ _ _ _ h
  · intro B
    have hE := Int.le_natAbs (a := Int.tdiv enterTime 1000)
    have hB := Int.le_natAbs (a := B)
    set M : Int :=
      ((Int.tdiv enterTime 1000).natAbs : Int) + (B.natAbs : Int) + 1 with hMdef
    have hM : 1 ≤ M := by rw [hMdef]; omega
    refine ⟨fun k => ((k : Int) - 1) * M, ?_, [], 0, ?_, ?_⟩
    · intro k
      show ((k : Int) - 1) * M + 1 ≤ (((k + 1 : Nat) : Int) - 1) * M
      have hd : ((((k + 1 : Nat)) : Int) - 1) * M - ((k : Int) - 1) * M = M := by
        push_cast
        ring
      omega
    · refine loop_exit_now _ _ _ _ _ 0 0 1 ?_
      show ¬(0 : Int) - (((0 : Nat) : Int) - 1) * M < Int.tdiv enterTime 1000
      have h0 : (((0 : Nat) : Int) - 1) * M = -M := by push_cast; ring
      rw [h0]
      omega
    · show B < 0 - (((0 : Nat) : Int) - 1) * M
      have h0 : (((0 : Nat) : Int) - 1) * M = -M := by push_cast; ring
      rw [h0]
      omega

/-- C6 witness: termination of a concrete armed call under the
one-second-per-reading clock. -/
theorem loop_exits_by_elapsed_time_witness :
    ∃ fuel, (criticalNative envT sA 2000 500 fuel).isSome :=
  (loop_exits_by_elapsed_time envT sA 2000 500 7 (by decide) (by decide)
    (fun k => by
      show ((k : Int)) + 1 ≤ (((k + 1 : Nat)) : Int)
      push_cast
      omega)).1

/-- C7 counterexample: with `holder.obj = 7`, `enterTime = 2000`,
`sleepTime = 500`, under the deterministic clock in which each 500 ms
sleep advances the clock 500 ms (so each two-sleep iteration advances the
seconds clock by one), the loop performs exactly 2 iterations — 2
create/destroy pairs — not approximately 4. -/
theorem scenario_2000ms_500ms_cex :
    (criticalNative envC7 sA 2000 500 2).map (fun r => countCreates r.2) =
      some 2 := by decide

/-- C7 amended: in that scenario the threshold is 2 s and each iteration
takes 1 s (two 500 ms sleeps), so the call performs exactly 2
create/destroy pairs of the weak back-reference and `holder.obj = 7` on
return. -/
theorem scenario_2000ms_500ms_two_pairs :
    (criticalNative envC7 sA 2000 500 2).map
        (fun r => (countCreates r.2, countDeletes r.2, r.1.slot)) =
      some (2, 2, some 7) := by decide

/-- A single call never changes a populated `objFieldId` cache. -/
theorem criticalNative_cache_mono (env : Env) (s : State) (e t : Int)
    (fuel : Nat) (s2 : State) (evs : List Event) (f : Nat)
    (hrun : criticalNative env s e t fuel = some (s2, evs))
    (hc : s.objFieldId = some f) : s2.objFieldId = some f := by
  unfold criticalNative at hrun
  rw [hc] at hrun
  have h := armedPhase_cache env s e t fuel s2 evs hrun
  rw [h, hc]

/-- No sequence of calls changes a populated `objFieldId` cache. -/
theorem runCalls_cache_mono (f : Nat) :
    ∀ (calls : List Call) (s s2 : State), runCalls s calls = some s2 →
      s.objFieldId = some f → s2.objFieldId = some f := by
  intro calls
  induction calls with
  | nil =>
    intro s s2 h hc
    simp only [runCalls, Option.some.injEq] at h
    rw [← h, hc]
  | cons c cs ih =>
    intro s s2 h hc
    unfold runCalls at h
    split at h
    · exact absurd h (by simp)
    · rename_i p s3 evs3 hcall
      exact ih _ _ h
        (criticalNative_cache_mono _ _ _ _ _ _ _ _ hcall hc)

/-- C8: the field locator is resolved at most once per process: a call
leaves a populated cache unchanged, every sequence of calls leaves a
populated cache unchanged, and with a populated cache the routine never
consults the introspection collaborators — its behaviour depends only on
the clock. -/
theorem objFieldId_write_once (s : State) (f : Nat) :
    (∀ (env : Env) (e t : Int) (fuel : Nat) (s2 : State) (evs : List Event),
        criticalNative env s e t fuel = some (s2, evs) →
        s.objFieldId = some f → s2.objFieldId = some f) ∧
    (∀ (calls : List Call) (s2 : State), runCalls s calls = some s2 →
        s.objFieldId = some f → s2.objFieldId = some f) ∧
    (∀ (env env2 : Env) (e t : Int) (fuel : Nat), env.clock = env2.clock →
        s.objFieldId = some f →
        criticalNative env s e t fuel = criticalNative env2 s e t fuel) := by
  refine ⟨?_, ?_, ?_⟩
  · intro env e t fuel s2 evs hrun hc
    exact criticalNative_cache_mono env s e t fuel s2 evs f hrun hc
  · intro calls s2 h hc
    exact runCalls_cache_mono f calls s s2 h hc
  · intro env env2 e t fuel hck hc
    unfold criticalNative
    rw [hc]
    unfold armedPhase
    rw [hck]

/-- C8 witness: a call through a host whose field lookup would answer 5
leaves the cached locator 0 in place. -/
theorem objFieldId_write_once_witness :
    (⟨some 0, some 7⟩ : State).objFieldId = some 0 :=
  (objFieldId_write_once sA 0).2.1 [⟨envB, 0, 0, 1⟩] ⟨some 0, some 7⟩
    (by decide) rfl

end JNIWeakGlobalRefLocker

/-- C10: `getTimeStamp` truncates a monotonic clock's time-since-epoch to
milliseconds, so of two successive calls the later one's timestamp is
greater than or equal to the earlier one's. -/
theorem getTimeStamp_monotone (c : Nat → Nat)
    (hmono : ∀ i j : Nat, i ≤ j → c i ≤ c j) (i j : Nat) (hij : i ≤ j) :
    AccessBridgeDebug.getTimeStamp c i ≤ AccessBridgeDebug.getTimeStamp c j :=
  Nat.div_le_div_right (hmono i j hij)

/-- C10 witness: concrete steady clock advancing 2 ms per call. -/
theorem getTimeStamp_monotone_witness :
    AccessBridgeDebug.getTimeStamp (fun k => 2000000 * k) 1 ≤
      AccessBridgeDebug.getTimeStamp (fun k => 2000000 * k) 3 :=
  getTimeStamp_monotone (fun k => 2000000 * k)
    (fun i j h => Nat.mul_le_mul_left 2000000 h) 1 3 (by decide)
